import Mathlib

/-!
Verification development for the OGI vs Federated Learning simulation
(src/src/ogi_simulation.py).

The Python program is embedded shallowly: every random draw the Python code takes
from the global random generator (random.choice, random.uniform, random.gauss,
random.randint) is modelled as an explicit input value, every timestamp and
object hash as an explicit input, and the mutable objects (agents, the runner)
as explicit state passed through pure functions.  Python dicts are modelled as
insertion-ordered association lists with the usual lookup and replace-or-append
update, matching dict semantics for the operations the code uses.  Python floats
are modelled exactly: the coherence-index formula uses a real logarithm and is
modelled over the reals; all other arithmetic in the program is decimal-rational
and is modelled over the rationals.
-/

namespace OgiSim

/-- Association-list model of a Python dict from framework name to strength
(insertion ordered, as Python dicts are). -/
abbrev FrameworkDict := List (String × ℚ)

/-- Python dict lookup: first binding of the key, if any. -/
def dictGet : FrameworkDict → String → Option ℚ
  | [], _ => none
  | (k, v) :: rest, key => if k = key then some v else dictGet rest key

/-- Python dict assignment: replace the binding in place if the key is present,
otherwise append a new binding at the end (Python dicts keep insertion order). -/
def dictSet : FrameworkDict → String → ℚ → FrameworkDict
  | [], key, val => [(key, val)]
  | (k, v) :: rest, key, val =>
      if k = key then (k, val) :: rest else (k, v) :: dictSet rest key val

/-- generate_hypothesis builds {'type', 'target', 'proposed_change', 'confidence'}. -/
structure Hypothesis where
  type : String
  target : String
  proposed_change : String
  confidence : ℚ

/-- test_hypothesis builds
{'hypothesis', 'success_rate', 'validation_passed', 'insights_gained'}. -/
structure CycleResult where
  hypothesis : Hypothesis
  success_rate : ℚ
  validation_passed : Bool
  insights_gained : ℕ

/-- record_to_ledger builds
{'epoch', 'timestamp', 'change_type', 'validation', 'hash'}. -/
structure LedgerEntry where
  epoch : ℕ
  timestamp : String
  change_type : String
  validation : Bool
  hash : Int

/-- State of OGIAgent: agent_id, scenario, epoch, development_history (created
empty by __init__ and never written by any method), reasoning_frameworks, ledger. -/
structure OGIAgent where
  agent_id : String
  scenario : String
  epoch : ℕ
  development_history : List CycleResult
  reasoning_frameworks : FrameworkDict
  ledger : List LedgerEntry

/-- OGIAgent.__init__. -/
def OGIAgent.init (id scen : String) : OGIAgent :=
  { agent_id := id, scenario := scen, epoch := 0, development_history := [],
    reasoning_frameworks := [], ledger := [] }

/-- The explicit inputs one call of OGIAgent.develop_epoch consumes:
the random.choice index over the three target names, the random.uniform(0.6, 0.9)
confidence draw, the random.uniform(0.7, 0.95) success-rate draw, the
random.randint(3, 7) insight draw, the datetime.now() timestamp, and the value of
Python's hash() on the stringified result. -/
structure CycleEnv where
  target_choice : Fin 3
  confidence : ℚ
  success_rate : ℚ
  insights : ℕ
  timestamp : String
  hash_val : Int

/-- random.choice(['pattern_recognition', 'causal_inference', 'uncertainty_handling']),
with the draw modelled as the chosen index. -/
def chooseTarget (i : Fin 3) : String :=
  ["pattern_recognition", "causal_inference", "uncertainty_handling"].get i

/-- OGIAgent.generate_hypothesis. -/
def OGIAgent.generate_hypothesis (a : OGIAgent) (env : CycleEnv) : Hypothesis :=
  { type := "framework_revision",
    target := chooseTarget env.target_choice,
    proposed_change := "Revision_" ++ toString a.epoch,
    confidence := env.confidence }

/-- OGIAgent.test_hypothesis: success_rate is the uniform draw and
validation_passed is success_rate > 0.75. -/
def OGIAgent.test_hypothesis (hyp : Hypothesis) (env : CycleEnv) : CycleResult :=
  { hypothesis := hyp,
    success_rate := env.success_rate,
    validation_passed := decide (env.success_rate > 0.75),
    insights_gained := env.insights }

/-- OGIAgent.integrate_learning: when validation passed, default the target
framework to 0.5 if absent, add 0.02 * success_rate to it and clamp the result to
at most 0.95 (the Python code performs the default, the += and the min as
successive dict writes to the same key; the composition is one write of the final
value); when validation failed, the dict is untouched. -/
def integrate_learning (fw : FrameworkDict) (result : CycleResult) : FrameworkDict :=
  if result.validation_passed then
    let key := result.hypothesis.target
    let fw0 := if dictGet fw key = none then dictSet fw key 0.5 else fw
    let cur := (dictGet fw0 key).getD 0
    dictSet fw0 key (min 0.95 (cur + 0.02 * result.success_rate))
  else fw

/-- OGIAgent.record_to_ledger: the appended entry (epoch is read before the
increment in develop_epoch). -/
def OGIAgent.record_to_ledger (a : OGIAgent) (result : CycleResult) (env : CycleEnv) :
    LedgerEntry :=
  { epoch := a.epoch,
    timestamp := env.timestamp,
    change_type := result.hypothesis.type,
    validation := result.validation_passed,
    hash := env.hash_val }

/-- OGIAgent.develop_epoch: generate a hypothesis, test it, integrate the
learning, append to the ledger, increment the epoch; returns the new state and
the cycle result. -/
def OGIAgent.develop_epoch (a : OGIAgent) (env : CycleEnv) : OGIAgent × CycleResult :=
  let hyp := a.generate_hypothesis env
  let result := OGIAgent.test_hypothesis hyp env
  let fw := integrate_learning a.reasoning_frameworks result
  let entry := a.record_to_ledger result env
  ({ a with reasoning_frameworks := fw,
            ledger := a.ledger ++ [entry],
            epoch := a.epoch + 1 }, result)

/-- k successive calls of develop_epoch, the call at step i consuming the inputs
envs i. -/
def runCycles (a : OGIAgent) (envs : ℕ → CycleEnv) : ℕ → OGIAgent
  | 0 => a
  | k + 1 => ((runCycles a envs k).develop_epoch (envs k)).1

/-- OGIAgent.calculate_mutation_drift: max(0, 0.10 - 0.005 * epoch) plus the
random.gauss(0, 0.01) draw, with the draw modelled as the explicit input. -/
def OGIAgent.calculate_mutation_drift (a : OGIAgent) (noise : ℚ) : ℚ :=
  max 0 (0.10 - 0.005 * (a.epoch : ℚ)) + noise

/-- OGIAgent.calculate_cci: exactly 0.65 at epoch 0 (no draw is taken), otherwise
0.65 + 0.02 * ln(epoch + 1) plus the random.gauss(0, 0.02) draw, clamped as
min(0.95, max(0.60, cci)). -/
noncomputable def OGIAgent.calculate_cci (a : OGIAgent) (noise : ℝ) : ℝ :=
  if a.epoch = 0 then 0.65
  else min 0.95 (max 0.60 (0.65 + 0.02 * Real.log ((a.epoch : ℝ) + 1) + noise))

/-- SimulationRunner.ogi_supervised_sync: computes the total insight count (a
local variable the method never uses) and returns the random.gauss(15, 3)
communication-cost draw, modelled as the explicit input.  The method reads no
framework values and writes nothing: the agents are returned exactly as given. -/
def ogi_supervised_sync (agents : List OGIAgent) (comm_draw : ℚ) :
    List OGIAgent × ℚ :=
  let _total_insights := (agents.map (fun a => a.reasoning_frameworks.length)).sum
  (agents, comm_draw)

/-- Definition following the spec's words (section 4.3) and the claim, for
comparison with ogi_supervised_sync: for every agent A and every framework in
A's mapping, add 0.02 * (B_value - A_value) for every distinct agent B whose
mapping also holds that framework, all read from the pre-sync snapshot, and
clamp the result to at most 0.95.  This behaviour does not occur anywhere in the
source. -/
def specSyncNudge (agents : List OGIAgent) : List OGIAgent :=
  agents.map (fun a =>
    { a with reasoning_frameworks := a.reasoning_frameworks.map (fun kv =>
        let deltas := ((agents.filter (fun b => b.agent_id ≠ a.agent_id)).map
          (fun b => match dictGet b.reasoning_frameworks kv.1 with
                    | some bv => 0.02 * (bv - kv.2)
                    | none => 0)).sum
        (kv.1, min 0.95 (kv.2 + deltas))) })

/-- State of FederatedAgent. -/
structure FederatedAgent where
  agent_id : String
  scenario : String
  epoch : ℕ
  global_model_version : ℕ

/-- FederatedAgent.__init__. -/
def FederatedAgent.init (id scen : String) : FederatedAgent :=
  { agent_id := id, scenario := scen, epoch := 0, global_model_version := 0 }

/-- local_training builds {'model_updates', 'local_loss', 'samples_trained'};
note it has no 'communication_mb' entry. -/
structure LocalUpdate where
  model_updates : String
  local_loss : ℚ
  samples_trained : ℕ

/-- upload_to_server builds
{'global_model_version', 'aggregated_weights', 'communication_mb'}. -/
structure ServerResponse where
  global_model_version : ℕ
  aggregated_weights : String
  communication_mb : ℚ

/-- FederatedAgent.local_training, with the random.uniform(0.1, 0.5) loss draw
and random.randint(100, 1000) sample draw as explicit inputs. -/
def FederatedAgent.local_training (a : FederatedAgent) (loss : ℚ) (samples : ℕ) :
    LocalUpdate :=
  { model_updates := "weights_v" ++ toString a.epoch,
    local_loss := loss, samples_trained := samples }

/-- FederatedAgent.upload_to_server, with the random.gauss(45, 8) draw as the
explicit input. -/
def FederatedAgent.upload_to_server (a : FederatedAgent) (_u : LocalUpdate)
    (comm_draw : ℚ) : ServerResponse :=
  { global_model_version := a.global_model_version + 1,
    aggregated_weights := "global_v" ++ toString a.epoch,
    communication_mb := comm_draw }

/-- FederatedAgent.train_epoch: local training, upload, download (store the new
version), increment epoch; returns the new state and the local update. -/
def FederatedAgent.train_epoch (a : FederatedAgent) (loss : ℚ) (samples : ℕ)
    (comm_draw : ℚ) : FederatedAgent × LocalUpdate :=
  let u := a.local_training loss samples
  let resp := a.upload_to_server u comm_draw
  ({ a with global_model_version := resp.global_model_version,
            epoch := a.epoch + 1 }, u)

/-- FederatedAgent.calculate_cci: the random.gauss(0.55, 0.03) draw clamped as
max(0.40, min(0.70, base)). -/
noncomputable def FederatedAgent.calculate_cci (_a : FederatedAgent) (base : ℝ) : ℝ :=
  max 0.40 (min 0.70 base)

/-- FederatedAgent.calculate_mutation_drift: the random.gauss(0.25, 0.05) draw,
returned unchanged. -/
def FederatedAgent.calculate_mutation_drift (_a : FederatedAgent) (draw : ℚ) : ℚ :=
  draw

/-- One row of self.results as built in SimulationRunner.run_scenario. -/
structure MetricRecord where
  scenario : String
  epoch : ℕ
  cci_ogi : ℝ
  cci_flower : ℝ
  mutation_drift_ogi : ℚ
  mutation_drift_flower : ℚ
  comm_ogi_mb : ℚ
  comm_flower_mb : ℚ
  ogi_agents : ℕ
  fl_agents : ℕ

/-- The explicit inputs one iteration of the epoch loop consumes, indexed by
agent position where the code draws per agent. -/
structure EpochEnv where
  ogi : ℕ → CycleEnv
  fl_loss : ℕ → ℚ
  fl_samples : ℕ → ℕ
  fl_comm : ℕ → ℚ
  sync_draw : ℚ
  ogi_cci_noise : ℕ → ℝ
  fl_cci_base : ℕ → ℝ
  ogi_drift_noise : ℕ → ℚ
  fl_drift_draw : ℕ → ℚ

/-- Map a function that also receives the position, used to hand each agent of a
list its own draws. -/
def mapWithIndex (f : ℕ → α → β) : ℕ → List α → List β
  | _, [] => []
  | i, a :: rest => f i a :: mapWithIndex f (i + 1) rest

/-- np.mean over the real-valued per-agent metrics. -/
noncomputable def listMeanR (l : List ℝ) : ℝ := l.sum / (l.length : ℝ)

/-- np.mean over the rational-valued per-agent metrics. -/
def listMeanQ (l : List ℚ) : ℚ := l.sum / (l.length : ℚ)

/-- One iteration of the epoch loop in SimulationRunner.run_scenario: advance
every OGI agent, advance every federated agent accumulating communication
(local_update has no 'communication_mb' key, so result.get('communication_mb', 45)
yields the default 45 for every agent), run the deferred sync when
epoch % 5 == 0 (else the communication slot is 0), average the four metrics and
emit the metric record. -/
noncomputable def scenarioStep (scen : String) (epoch : ℕ) (env : EpochEnv)
    (ogi : List OGIAgent) (fl : List FederatedAgent) :
    List OGIAgent × List FederatedAgent × MetricRecord :=
  let ogi1 := mapWithIndex (fun i a => (a.develop_epoch (env.ogi i)).1) 0 ogi
  let flStep := mapWithIndex
    (fun i a => a.train_epoch (env.fl_loss i) (env.fl_samples i) (env.fl_comm i)) 0 fl
  let fl1 := flStep.map Prod.fst
  let fl_results := flStep.map Prod.snd
  let fl_comm_total : ℚ := (fl_results.map (fun _r => (45 : ℚ))).sum
  let syncRes := if epoch % 5 = 0 then ogi_supervised_sync ogi1 env.sync_draw
                 else (ogi1, 0)
  let ogi2 := syncRes.1
  let avg_ogi_cci := listMeanR
    (mapWithIndex (fun i a => a.calculate_cci (env.ogi_cci_noise i)) 0 ogi2)
  let avg_fl_cci := listMeanR
    (mapWithIndex (fun i a => a.calculate_cci (env.fl_cci_base i)) 0 fl1)
  let avg_ogi_drift := listMeanQ
    (mapWithIndex (fun i a => a.calculate_mutation_drift (env.ogi_drift_noise i)) 0 ogi2)
  let avg_fl_drift := listMeanQ
    (mapWithIndex (fun i a => a.calculate_mutation_drift (env.fl_drift_draw i)) 0 fl1)
  (ogi2, fl1,
    { scenario := scen, epoch := epoch,
      cci_ogi := avg_ogi_cci, cci_flower := avg_fl_cci,
      mutation_drift_ogi := avg_ogi_drift, mutation_drift_flower := avg_fl_drift,
      comm_ogi_mb := syncRes.2, comm_flower_mb := fl_comm_total,
      ogi_agents := ogi2.length, fl_agents := fl1.length })

/-- The epoch loop of run_scenario: n iterations starting at the given epoch
index, threading both agent lists and collecting the metric records in order. -/
noncomputable def scenarioLoop (scen : String) (env : ℕ → EpochEnv) :
    List OGIAgent → List FederatedAgent → ℕ → ℕ → List MetricRecord
  | _, _, _, 0 => []
  | ogi, fl, epoch, n + 1 =>
      let step := scenarioStep scen epoch (env epoch) ogi fl
      step.2.2 :: scenarioLoop scen env step.1 step.2.1 (epoch + 1) n

/-- Configuration state of SimulationRunner.__init__ (the results and logs
accumulators are represented by the record lists the loop functions return). -/
structure SimulationRunner where
  scenarios : List String
  num_agents : ℕ
  num_epochs : ℕ

/-- SimulationRunner.__init__: takes no parameters, performs no validation, and
unconditionally produces the fixed configuration. -/
def SimulationRunner.init : SimulationRunner :=
  { scenarios := ["medical_diagnosis", "disaster_response", "autonomous_labs"],
    num_agents := 5, num_epochs := 20 }

/-- Definition following the spec's words (section 7) and the claim, for
comparison with the code's constructor: a validating construction that fails
with an InvalidConfiguration condition when agent-count < 1 or cycle-count < 1
or synchronization-period < 1.  No such validation exists in the source: the
code's constructor takes no parameters and has no failure path. -/
def specRunnerInit (agents epochs sync_period : ℕ) : Except String SimulationRunner :=
  if agents < 1 ∨ epochs < 1 ∨ sync_period < 1 then
    Except.error "InvalidConfiguration"
  else
    Except.ok { scenarios := ["medical_diagnosis", "disaster_response", "autonomous_labs"],
                num_agents := agents, num_epochs := epochs }

/-- The fresh OGI agent list run_scenario creates. -/
def initOgiAgents (n : ℕ) (scen : String) : List OGIAgent :=
  (List.range n).map (fun i => OGIAgent.init ("ogi_" ++ toString i) scen)

/-- The fresh federated agent list run_scenario creates. -/
def initFlAgents (n : ℕ) (scen : String) : List FederatedAgent :=
  (List.range n).map (fun i => FederatedAgent.init ("fl_" ++ toString i) scen)

/-- SimulationRunner.run_scenario: fresh agent sets, then the epoch loop for
num_epochs cycles starting at epoch 0; yields the metric records it appends. -/
noncomputable def SimulationRunner.run_scenario (r : SimulationRunner)
    (scen : String) (env : ℕ → EpochEnv) : List MetricRecord :=
  scenarioLoop scen env (initOgiAgents r.num_agents scen)
    (initFlAgents r.num_agents scen) 0 r.num_epochs

/-- SimulationRunner.run_full_simulation restricted to its core: run each
scenario in order and accumulate the metric records.  The environment assigns
each scenario its own input stream, modelling per-scenario seeding of the
random source. -/
noncomputable def SimulationRunner.run_full_simulation (r : SimulationRunner)
    (envOf : String → ℕ → EpochEnv) : List MetricRecord :=
  (r.scenarios.map (fun scen => r.run_scenario scen (envOf scen))).flatten

/-- The ledger entry develop_epoch appends at step i when started from agent a
(closed form used to state the ledger invariants). -/
def ledgerEntryAt (a : OGIAgent) (envs : ℕ → CycleEnv) (i : ℕ) : LedgerEntry :=
  { epoch := a.epoch + i,
    timestamp := (envs i).timestamp,
    change_type := "framework_revision",
    validation := decide ((envs i).success_rate > 0.75),
    hash := (envs i).hash_val }

/-- Concrete per-cycle inputs whose hypothesis evaluation passes
(success rate 0.8 > 0.75), used to instantiate theorems with hypotheses. -/
def envPass : CycleEnv :=
  { target_choice := 0, confidence := 0.7, success_rate := 0.8,
    insights := 5, timestamp := "t", hash_val := 0 }

/-- Concrete per-cycle inputs whose hypothesis evaluation fails
(success rate 0.7 <= 0.75). -/
def envFail : CycleEnv :=
  { target_choice := 0, confidence := 0.7, success_rate := 0.7,
    insights := 5, timestamp := "t", hash_val := 0 }

/-- Concrete epoch-loop inputs with a nonzero sync draw, used to instantiate
theorems with hypotheses. -/
noncomputable def constEnv : ℕ → EpochEnv := fun _ =>
  { ogi := fun _ => envPass,
    fl_loss := fun _ => 0.3, fl_samples := fun _ => 500, fl_comm := fun _ => 45,
    sync_draw := 15,
    ogi_cci_noise := fun _ => 0, fl_cci_base := fun _ => 0.55,
    ogi_drift_noise := fun _ => 0, fl_drift_draw := fun _ => 0.25 }

/-- Concrete two-agent input for the synchronizer, first agent. -/
def syncExampleA : OGIAgent :=
  { OGIAgent.init "A" "s" with reasoning_frameworks := [("pattern_recognition", 0.6)] }

/-- Concrete two-agent input for the synchronizer, second agent. -/
def syncExampleB : OGIAgent :=
  { OGIAgent.init "B" "s" with reasoning_frameworks := [("pattern_recognition", 0.8)] }

/-! ## Theorems -/

/-- Looking up the key just written yields the written value. -/
theorem dictGet_dictSet_self (fw : FrameworkDict) (k : String) (v : ℚ) :
    dictGet (dictSet fw k v) k = some v := by
  induction fw with
  | nil => simp [dictGet, dictSet]
  | cons kv rest ih =>
      by_cases h : kv.1 = k
      · simp [dictGet, dictSet, h]
      · simp [dictGet, dictSet, h, ih]

/-- Writing one key leaves every other key's lookup unchanged. -/
theorem dictGet_dictSet_ne (fw : FrameworkDict) (k : String) (v : ℚ)
    (k' : String) (h : k' ≠ k) :
    dictGet (dictSet fw k v) k' = dictGet fw k' := by
  induction fw with
  | nil => simp [dictGet, dictSet, Ne.symm h]
  | cons kv rest ih =>
      obtain ⟨k0, v0⟩ := kv
      by_cases hk : k0 = k
      · subst hk
        simp [dictGet, dictSet, Ne.symm h]
      · simp [dictGet, dictSet, hk, ih]

/-- A successful lookup exhibits a member of the association list. -/
theorem dictGet_mem (fw : FrameworkDict) (k : String) (v : ℚ)
    (h : dictGet fw k = some v) : (k, v) ∈ fw := by
  induction fw with
  | nil => simp [dictGet] at h
  | cons kv rest ih =>
      obtain ⟨k0, v0⟩ := kv
      by_cases hk : k0 = k
      · subst hk
        simp [dictGet] at h
        subst h
        exact List.mem_cons_self _ _
      · simp [dictGet, hk] at h
        exact List.mem_cons_of_mem _ (ih h)

/-- Every member of an updated association list is an old member or the new
binding. -/
theorem mem_dictSet (fw : FrameworkDict) (k : String) (v : ℚ) (kv : String × ℚ)
    (h : kv ∈ dictSet fw k v) : kv ∈ fw ∨ kv = (k, v) := by
  induction fw with
  | nil => simp [dictSet] at h; simp [h]
  | cons hd rest ih =>
      by_cases hk : hd.1 = k
      · simp [dictSet, hk] at h
        rcases h with h | h
        · right; simp [h, ← hk]
        · left; exact List.mem_cons_of_mem _ h
      · simp [dictSet, hk] at h
        rcases h with h | h
        · left; simp [h]
        · rcases ih h with h' | h'
          · left; exact List.mem_cons_of_mem _ h'
          · right; exact h'

/-- The epoch counter after k development cycles. -/
theorem runCycles_epoch (a : OGIAgent) (envs : ℕ → CycleEnv) (k : ℕ) :
    (runCycles a envs k).epoch = a.epoch + k := by
  induction k with
  | zero => rfl
  | succ k ih => simp [runCycles, OGIAgent.develop_epoch, ih, Nat.add_assoc]

/-- Closed form of the ledger after k development cycles: the initial ledger
followed by one entry per cycle, in cycle order. -/
theorem runCycles_ledger (a : OGIAgent) (envs : ℕ → CycleEnv) (k : ℕ) :
    (runCycles a envs k).ledger
      = a.ledger ++ (List.range k).map (ledgerEntryAt a envs) := by
  induction k with
  | zero => simp [runCycles]
  | succ k ih =>
      have hepoch := runCycles_epoch a envs k
      simp [runCycles, OGIAgent.develop_epoch, OGIAgent.record_to_ledger,
        OGIAgent.test_hypothesis, OGIAgent.generate_hypothesis, ih,
        List.range_succ, ledgerEntryAt, hepoch]

/-- C3: after exactly k development cycles the ledger has length k, its entries'
cycle indices are exactly 0, 1, ..., k-1 in order, and the ledger after k cycles
is literally the unchanged k-entry prefix of the ledger after any further j
cycles (no prior entry is modified or removed). -/
theorem C3_ledger_append_only (id scen : String) (envs : ℕ → CycleEnv) (k j : ℕ) :
    ((runCycles (OGIAgent.init id scen) envs k).ledger).length = k ∧
    ((runCycles (OGIAgent.init id scen) envs k).ledger).map (fun e => e.epoch)
      = List.range k ∧
    (runCycles (OGIAgent.init id scen) envs k).ledger
      = ((runCycles (OGIAgent.init id scen) envs (k + j)).ledger).take k := by
  have hk := runCycles_ledger (OGIAgent.init id scen) envs k
  have hkj := runCycles_ledger (OGIAgent.init id scen) envs (k + j)
  refine ⟨?_, ?_, ?_⟩
  · rw [hk]
    simp [OGIAgent.init]
  · rw [hk]
    simp only [OGIAgent.init, List.nil_append, List.map_map]
    have hfun : ((fun e : LedgerEntry => e.epoch) ∘
        ledgerEntryAt ⟨id, scen, 0, [], [], []⟩ envs) = fun i => i := by
      funext i
      simp [ledgerEntryAt]
    rw [hfun]
    simp
  · rw [hk, hkj]
    simp [OGIAgent.init, ← List.map_take, List.take_range,
      min_eq_left (Nat.le_add_right k j)]

/-- C1 counterexample: at the concrete two-agent input where both agents hold
the framework "pattern_recognition" with pre-sync values 0.6 and 0.8, the
claimed nudge formula yields post-sync values 0.604 and 0.796, but the code's
synchronizer leaves both mappings at their pre-sync values: no nudging occurs
anywhere in ogi_supervised_sync. -/
theorem C1_counterexample :
    ((ogi_supervised_sync [syncExampleA, syncExampleB] 15).1.map
        (fun a => dictGet a.reasoning_frameworks "pattern_recognition"))
      = [some 0.6, some 0.8] ∧
    ((specSyncNudge [syncExampleA, syncExampleB]).map
        (fun a => dictGet a.reasoning_frameworks "pattern_recognition"))
      = [some 0.604, some 0.796] ∧
    (0.6 : ℚ) ≠ 0.604 := by
  refine ⟨rfl, ?_, by norm_num⟩
  have h1 : ¬("B" : String) = "A" := by decide
  have h2 : ¬("A" : String) = "B" := by decide
  norm_num [specSyncNudge, syncExampleA, syncExampleB, OGIAgent.init, dictGet,
    min_def, List.filter_cons, List.filter_nil, h1, h2]

/-- C1 amended: the synchronizer modifies no agent state at all — for every
agent list and every communication draw, the post-sync agents are exactly the
pre-sync agents (hence trivially identical under any permutation of agent
iteration order), and the returned communication cost is the gauss(15, 3)
draw. -/
theorem C1_sync_is_identity (agents : List OGIAgent) (d : ℚ) :
    (ogi_supervised_sync agents d).1 = agents ∧
    (ogi_supervised_sync agents d).2 = d :=
  ⟨rfl, rfl⟩

/-- C4 counterexample: the claimed validating construction (specRunnerInit,
written from the spec's words) rejects agent-count 0, but the code's
constructor takes no configuration parameters at all and unconditionally
produces the fixed runner with 5 agents and 20 cycles — no InvalidConfiguration
validation and no failure path exist in SimulationRunner.__init__. -/
theorem C4_counterexample :
    specRunnerInit 0 20 5 = Except.error "InvalidConfiguration" ∧
    SimulationRunner.init.num_agents = 5 ∧
    SimulationRunner.init.num_epochs = 20 :=
  ⟨rfl, rfl, rfl⟩

/-- C4 amended: Runner construction never fails — the constructor takes no
parameters and unconditionally yields the fixed configuration (3 scenarios,
5 agents per variant, 20 cycles), which the spec's own validity conditions
accept. -/
theorem C4_runner_init_total :
    SimulationRunner.init.num_agents = 5 ∧
    SimulationRunner.init.num_epochs = 20 ∧
    SimulationRunner.init.scenarios.length = 3 ∧
    specRunnerInit SimulationRunner.init.num_agents SimulationRunner.init.num_epochs 5
      ≠ Except.error "InvalidConfiguration" := by
  refine ⟨rfl, rfl, rfl, ?_⟩
  intro h
  simp [specRunnerInit, SimulationRunner.init] at h

/-- C5: the coherence index is exactly 0.65 at cycle 0 (for every noise value),
and for every cycle count c + 1 ≥ 1 it is 0.65 + 0.02 * ln((c + 1) + 1) plus the
noise draw clamped as min(0.95, max(0.60, _)), so it lies in [0.60, 0.95] for
all noise values. -/
theorem C5_cci_formula :
    (∀ (id scen : String) (dh : List CycleResult) (fw : FrameworkDict)
        (lg : List LedgerEntry) (noise : ℝ),
        OGIAgent.calculate_cci ⟨id, scen, 0, dh, fw, lg⟩ noise = 0.65) ∧
    (∀ (id scen : String) (c : ℕ) (dh : List CycleResult) (fw : FrameworkDict)
        (lg : List LedgerEntry) (noise : ℝ),
        OGIAgent.calculate_cci ⟨id, scen, c + 1, dh, fw, lg⟩ noise
            = min 0.95 (max 0.60 (0.65 + 0.02 * Real.log ((c : ℝ) + 1 + 1) + noise)) ∧
        0.60 ≤ OGIAgent.calculate_cci ⟨id, scen, c + 1, dh, fw, lg⟩ noise ∧
        OGIAgent.calculate_cci ⟨id, scen, c + 1, dh, fw, lg⟩ noise ≤ 0.95) := by
  constructor
  · intro id scen dh fw lg noise
    simp [OGIAgent.calculate_cci]
  · intro id scen c dh fw lg noise
    have hne : c + 1 ≠ 0 := Nat.succ_ne_zero c
    have hform : OGIAgent.calculate_cci ⟨id, scen, c + 1, dh, fw, lg⟩ noise
        = min 0.95 (max 0.60 (0.65 + 0.02 * Real.log ((c : ℝ) + 1 + 1) + noise)) := by
      simp only [OGIAgent.calculate_cci, hne, if_false]
      push_cast
      ring_nf
    refine ⟨hform, ?_, ?_⟩
    · rw [hform]
      exact le_min (by norm_num) (le_max_left _ _)
    · rw [hform]
      exact min_le_left _ _

/-- C6: drift is max(0, 0.10 - 0.005 * cycle) plus the noise draw with no
clamping applied after the noise, so at every cycle count 20 + j (where the
decaying base has reached 0) every negative noise value makes the returned
drift negative. -/
theorem C6_drift_unclamped :
    (∀ (a : OGIAgent) (noise : ℚ),
        a.calculate_mutation_drift noise
          = max 0 (0.10 - 0.005 * (a.epoch : ℚ)) + noise) ∧
    (∀ (id scen : String) (j : ℕ) (dh : List CycleResult) (fw : FrameworkDict)
        (lg : List LedgerEntry) (n : ℚ), n < 0 →
        OGIAgent.calculate_mutation_drift ⟨id, scen, 20 + j, dh, fw, lg⟩ n < 0) := by
  constructor
  · intro a noise
    rfl
  · intro id scen j dh fw lg n hn
    have hbase : max (0 : ℚ) (0.10 - 0.005 * ((20 + j : ℕ) : ℚ)) = 0 := by
      apply max_eq_left
      push_cast
      have hj : (0 : ℚ) ≤ (j : ℚ) := Nat.cast_nonneg j
      nlinarith
    show max (0 : ℚ) (0.10 - 0.005 * ((20 + j : ℕ) : ℚ)) + n < 0
    rw [hbase]
    linarith

/-- The learning step keeps every framework value in [0.5, 0.95], given that a
passed validation means a success rate above 0.75 (which test_hypothesis
guarantees). -/
theorem integrate_window (fw : FrameworkDict) (res : CycleResult)
    (hsr : res.validation_passed = true → (0.75 : ℚ) < res.success_rate)
    (h : ∀ kv ∈ fw, (0.5 : ℚ) ≤ kv.2 ∧ kv.2 ≤ 0.95) :
    ∀ kv ∈ integrate_learning fw res, (0.5 : ℚ) ≤ kv.2 ∧ kv.2 ≤ 0.95 := by
  intro kv hkv
  by_cases hp : res.validation_passed = true
  · have hs := hsr hp
    by_cases habs : dictGet fw res.hypothesis.target = none
    · have hkv' : kv ∈ dictSet (dictSet fw res.hypothesis.target 0.5)
          res.hypothesis.target (min 0.95 (0.5 + 0.02 * res.success_rate)) := by
        simpa [integrate_learning, hp, habs, dictGet_dictSet_self] using hkv
      rcases mem_dictSet _ _ _ _ hkv' with h1 | h1
      · rcases mem_dictSet _ _ _ _ h1 with h2 | h2
        · exact h kv h2
        · rw [h2]
          exact ⟨by norm_num, by norm_num⟩
      · rw [h1]
        refine ⟨le_min (by norm_num) (by nlinarith), min_le_left _ _⟩
    · obtain ⟨v, hv⟩ := Option.ne_none_iff_exists'.mp habs
      have hbv := h _ (dictGet_mem _ _ _ hv)
      have hkv' : kv ∈ dictSet fw res.hypothesis.target
          (min 0.95 (v + 0.02 * res.success_rate)) := by
        simpa [integrate_learning, hp, habs, hv] using hkv
      rcases mem_dictSet _ _ _ _ hkv' with h1 | h1
      · exact h kv h1
      · rw [h1]
        refine ⟨le_min (by norm_num) (by nlinarith [hbv.1]), min_le_left _ _⟩
  · have hp' : res.validation_passed = false := by
      cases hres : res.validation_passed
      · rfl
      · exact absurd hres hp
    have hid : integrate_learning fw res = fw := by
      simp [integrate_learning, hp']
    rw [hid] at hkv
    exact h kv hkv

/-- One development cycle preserves the window invariant on framework values. -/
theorem develop_window (a : OGIAgent) (env : CycleEnv)
    (h : ∀ kv ∈ a.reasoning_frameworks, (0.5 : ℚ) ≤ kv.2 ∧ kv.2 ≤ 0.95) :
    ∀ kv ∈ (a.develop_epoch env).1.reasoning_frameworks,
      (0.5 : ℚ) ≤ kv.2 ∧ kv.2 ≤ 0.95 := by
  have hfw : (a.develop_epoch env).1.reasoning_frameworks
      = integrate_learning a.reasoning_frameworks
          (OGIAgent.test_hypothesis (a.generate_hypothesis env) env) := rfl
  rw [hfw]
  apply integrate_window _ _ _ h
  intro hp
  have hp' : decide (env.success_rate > 0.75) = true := hp
  exact of_decide_eq_true hp'

/-- The window invariant holds after any number of development cycles. -/
theorem runCycles_window (a : OGIAgent) (envs : ℕ → CycleEnv)
    (h : ∀ kv ∈ a.reasoning_frameworks, (0.5 : ℚ) ≤ kv.2 ∧ kv.2 ≤ 0.95) :
    ∀ (k : ℕ), ∀ kv ∈ (runCycles a envs k).reasoning_frameworks,
      (0.5 : ℚ) ≤ kv.2 ∧ kv.2 ≤ 0.95 := by
  intro k
  induction k with
  | zero => exact h
  | succ k ih => exact develop_window (runCycles a envs k) (envs k) ih

/-- One development cycle never decreases or removes an existing framework
value (given the window invariant). -/
theorem develop_mono (a : OGIAgent) (env : CycleEnv) (key : String) (v : ℚ)
    (hwin : ∀ kv ∈ a.reasoning_frameworks, (0.5 : ℚ) ≤ kv.2 ∧ kv.2 ≤ 0.95)
    (hv : dictGet a.reasoning_frameworks key = some v) :
    ∃ w, dictGet (a.develop_epoch env).1.reasoning_frameworks key = some w ∧ v ≤ w := by
  have hfw : (a.develop_epoch env).1.reasoning_frameworks
      = integrate_learning a.reasoning_frameworks
          (OGIAgent.test_hypothesis (a.generate_hypothesis env) env) := rfl
  rw [hfw]
  by_cases hp : (0.75 : ℚ) < env.success_rate
  · by_cases hk : key = chooseTarget env.target_choice
    · rw [hk] at hv ⊢
      have habs : ¬(dictGet a.reasoning_frameworks (chooseTarget env.target_choice)
          = none) := by
        rw [hv]
        simp
      have hout : integrate_learning a.reasoning_frameworks
            (OGIAgent.test_hypothesis (a.generate_hypothesis env) env)
          = dictSet a.reasoning_frameworks (chooseTarget env.target_choice)
              (min 0.95 (v + 0.02 * env.success_rate)) := by
        simp [integrate_learning, OGIAgent.test_hypothesis, OGIAgent.generate_hypothesis,
          hp, habs, hv]
      rw [hout]
      refine ⟨min 0.95 (v + 0.02 * env.success_rate), dictGet_dictSet_self _ _ _, ?_⟩
      have hvb := hwin _ (dictGet_mem _ _ _ hv)
      exact le_min hvb.2 (by nlinarith)
    · refine ⟨v, ?_, le_refl v⟩
      by_cases habs : dictGet a.reasoning_frameworks (chooseTarget env.target_choice) = none
      · have hout : integrate_learning a.reasoning_frameworks
              (OGIAgent.test_hypothesis (a.generate_hypothesis env) env)
            = dictSet (dictSet a.reasoning_frameworks (chooseTarget env.target_choice) 0.5)
                (chooseTarget env.target_choice)
                (min 0.95 (0.5 + 0.02 * env.success_rate)) := by
          simp [integrate_learning, OGIAgent.test_hypothesis, OGIAgent.generate_hypothesis,
            hp, habs, dictGet_dictSet_self]
        rw [hout, dictGet_dictSet_ne _ _ _ _ hk, dictGet_dictSet_ne _ _ _ _ hk]
        exact hv
      · obtain ⟨u, hu⟩ := Option.ne_none_iff_exists'.mp habs
        have hout : integrate_learning a.reasoning_frameworks
              (OGIAgent.test_hypothesis (a.generate_hypothesis env) env)
            = dictSet a.reasoning_frameworks (chooseTarget env.target_choice)
                (min 0.95 (u + 0.02 * env.success_rate)) := by
          simp [integrate_learning, OGIAgent.test_hypothesis, OGIAgent.generate_hypothesis,
            hp, habs, hu]
        rw [hout, dictGet_dictSet_ne _ _ _ _ hk]
        exact hv
  · have hout : integrate_learning a.reasoning_frameworks
        (OGIAgent.test_hypothesis (a.generate_hypothesis env) env)
        = a.reasoning_frameworks := by
      simp [integrate_learning, OGIAgent.test_hypothesis, hp]
    rw [hout]
    exact ⟨v, hv, le_refl v⟩

/-- C7: for the independent-development agent no framework strength ever
exceeds 0.95, after any number of development cycles under any inputs
(including runs in which every hypothesis evaluation passes). -/
theorem C7_strength_clamped (id scen : String) (envs : ℕ → CycleEnv) (k : ℕ) :
    ((runCycles (OGIAgent.init id scen) envs k).reasoning_frameworks).all
      (fun kv => decide (kv.2 ≤ (0.95 : ℚ))) = true := by
  rw [List.all_eq_true]
  intro kv hkv
  have hw := runCycles_window (OGIAgent.init id scen) envs
    (by simp [OGIAgent.init]) k kv hkv
  exact decide_eq_true hw.2

/-- C8: in one development cycle, a failed hypothesis evaluation
(success rate at most 0.75) leaves the framework mapping completely unchanged;
a passed one (success rate above 0.75) maps the target framework to its prior
value (default 0.5 when absent) plus 0.02 * success_rate clamped to at most
0.95, and changes no other framework entry. -/
theorem C8_learning_frame (a : OGIAgent) (env : CycleEnv) :
    (env.success_rate ≤ 0.75 →
      (a.develop_epoch env).1.reasoning_frameworks = a.reasoning_frameworks) ∧
    (0.75 < env.success_rate →
      dictGet (a.develop_epoch env).1.reasoning_frameworks (chooseTarget env.target_choice)
          = some (min 0.95
              ((dictGet a.reasoning_frameworks (chooseTarget env.target_choice)).getD 0.5
                + 0.02 * env.success_rate)) ∧
      ∀ key, key ≠ chooseTarget env.target_choice →
        dictGet (a.develop_epoch env).1.reasoning_frameworks key
          = dictGet a.reasoning_frameworks key) := by
  have hfw : (a.develop_epoch env).1.reasoning_frameworks
      = integrate_learning a.reasoning_frameworks
          (OGIAgent.test_hypothesis (a.generate_hypothesis env) env) := rfl
  constructor
  · intro hle
    rw [hfw]
    simp [integrate_learning, OGIAgent.test_hypothesis, not_lt.2 hle]
  · intro hp
    by_cases habs : dictGet a.reasoning_frameworks (chooseTarget env.target_choice) = none
    · have hout : integrate_learning a.reasoning_frameworks
            (OGIAgent.test_hypothesis (a.generate_hypothesis env) env)
          = dictSet (dictSet a.reasoning_frameworks (chooseTarget env.target_choice) 0.5)
              (chooseTarget env.target_choice)
              (min 0.95 (0.5 + 0.02 * env.success_rate)) := by
        simp [integrate_learning, OGIAgent.test_hypothesis, OGIAgent.generate_hypothesis,
          hp, habs, dictGet_dictSet_self]
      refine ⟨?_, ?_⟩
      · rw [hfw, hout, dictGet_dictSet_self, habs]
        rfl
      · intro key hkey
        rw [hfw, hout, dictGet_dictSet_ne _ _ _ _ hkey, dictGet_dictSet_ne _ _ _ _ hkey]
    · obtain ⟨u, hu⟩ := Option.ne_none_iff_exists'.mp habs
      have hout : integrate_learning a.reasoning_frameworks
            (OGIAgent.test_hypothesis (a.generate_hypothesis env) env)
          = dictSet a.reasoning_frameworks (chooseTarget env.target_choice)
              (min 0.95 (u + 0.02 * env.success_rate)) := by
        simp [integrate_learning, OGIAgent.test_hypothesis, OGIAgent.generate_hypothesis,
          hp, habs, hu]
      refine ⟨?_, ?_⟩
      · rw [hfw, hout, dictGet_dictSet_self, hu]
        rfl
      · intro key hkey
        rw [hfw, hout, dictGet_dictSet_ne _ _ _ _ hkey]

/-- C8 witness: at a failed evaluation (success rate 0.7) the mapping is
unchanged, and at a passed one (success rate 0.8, target pattern_recognition
with prior value 0.6) the target is looked up at the claimed clamped value. -/
theorem C8_witness :
    ((0.7 : ℚ) ≤ 0.75 ∧
      (syncExampleA.develop_epoch envFail).1.reasoning_frameworks
        = syncExampleA.reasoning_frameworks) ∧
    ((0.75 : ℚ) < 0.8 ∧
      dictGet (syncExampleA.develop_epoch envPass).1.reasoning_frameworks
          (chooseTarget envPass.target_choice)
        = some (min 0.95 ((dictGet syncExampleA.reasoning_frameworks
            (chooseTarget envPass.target_choice)).getD 0.5
              + 0.02 * envPass.success_rate))) :=
  ⟨⟨by norm_num, (C8_learning_frame syncExampleA envFail).1 (by norm_num [envFail])⟩,
   ⟨by norm_num, ((C8_learning_frame syncExampleA envPass).2 (by norm_num [envPass])).1⟩⟩

/-- C10: every framework value of the independent-development agent always lies
in [0.5, 0.95] after any number of development cycles; an existing entry is
never decreased or removed by a further cycle; and the synchronizer changes no
agent state at all. -/
theorem C10_framework_window (id scen : String) (envs : ℕ → CycleEnv) (k : ℕ) :
    (((runCycles (OGIAgent.init id scen) envs k).reasoning_frameworks).all
      (fun kv => decide ((0.5 : ℚ) ≤ kv.2 ∧ kv.2 ≤ 0.95)) = true) ∧
    (∀ (key : String) (v : ℚ),
      dictGet (runCycles (OGIAgent.init id scen) envs k).reasoning_frameworks key
          = some v →
      ∃ w, dictGet (runCycles (OGIAgent.init id scen) envs (k + 1)).reasoning_frameworks key
          = some w ∧ v ≤ w) ∧
    (∀ (agents : List OGIAgent) (d : ℚ), (ogi_supervised_sync agents d).1 = agents) := by
  refine ⟨?_, ?_, fun agents d => rfl⟩
  · rw [List.all_eq_true]
    intro kv hkv
    have hw := runCycles_window (OGIAgent.init id scen) envs
      (by simp [OGIAgent.init]) k kv hkv
    exact decide_eq_true hw
  · intro key v hv
    exact develop_mono (runCycles (OGIAgent.init id scen) envs k) (envs k) key v
      (runCycles_window (OGIAgent.init id scen) envs (by simp [OGIAgent.init]) k) hv

/-- C10 witness: after one passing cycle the entry pattern_recognition holds
0.516, and a further cycle keeps it present at a value at least as large. -/
theorem C10_witness :
    dictGet (runCycles (OGIAgent.init "a" "s") (fun _ => envPass) 1).reasoning_frameworks
        "pattern_recognition" = some 0.516 ∧
    ∃ w, dictGet (runCycles (OGIAgent.init "a" "s") (fun _ => envPass)
        (1 + 1)).reasoning_frameworks "pattern_recognition" = some w ∧ (0.516 : ℚ) ≤ w := by
  have h1 : dictGet (runCycles (OGIAgent.init "a" "s")
      (fun _ => envPass) 1).reasoning_frameworks "pattern_recognition" = some 0.516 := by
    norm_num [runCycles, OGIAgent.develop_epoch, integrate_learning,
      OGIAgent.test_hypothesis, OGIAgent.generate_hypothesis, chooseTarget, envPass,
      OGIAgent.init, dictGet, dictSet, min_def]
  exact ⟨h1, (C10_framework_window "a" "s" (fun _ => envPass) 1).2.1
    "pattern_recognition" 0.516 h1⟩

/-- C6 witness: at cycle count 20 with noise -0.005 the drift is negative. -/
theorem C6_drift_witness :
    (-0.005 : ℚ) < 0 ∧
    OGIAgent.calculate_mutation_drift ⟨"a", "s", 20 + 0, [], [], []⟩ (-0.005) < 0 :=
  ⟨by norm_num, C6_drift_unclamped.2 "a" "s" 0 [] [] [] (-0.005) (by norm_num)⟩

/-- The metric record of one loop iteration carries that iteration's epoch
index. -/
theorem scenarioStep_epoch (scen : String) (epoch : ℕ) (env : EpochEnv)
    (ogi : List OGIAgent) (fl : List FederatedAgent) :
    ( scenarioStep scen epoch env ogi fl).2.2.epoch = epoch := rfl

/-- The metric record of one loop iteration carries the scenario tag it was run
under. -/
theorem scenarioStep_scen (scen : String) (epoch : ℕ) (env : EpochEnv)
    (ogi : List OGIAgent) (fl : List FederatedAgent) :
    MetricRecord.scenario ( scenarioStep scen epoch env ogi fl).2.2 = scen := rfl

/-- The synchronization communication slot of one loop iteration is the sync
draw when epoch % 5 == 0 and exactly 0 otherwise. -/
theorem scenarioStep_comm (scen : String) (epoch : ℕ) (env : EpochEnv)
    (ogi : List OGIAgent) (fl : List FederatedAgent) :
    ( scenarioStep scen epoch env ogi fl).2.2.comm_ogi_mb
      = if epoch % 5 = 0 then env.sync_draw else 0 := by
  by_cases h5 : epoch % 5 = 0 <;>
    simp [scenarioStep, ogi_supervised_sync, h5]

/-- The loop starting at any epoch index emits records whose epoch fields are
exactly the consecutive indices it iterates over. -/
theorem scenarioLoop_map_epoch (scen : String) (env : ℕ → EpochEnv) :
    ∀ (n epoch : ℕ) (ogi : List OGIAgent) (fl : List FederatedAgent),
      (scenarioLoop scen env ogi fl epoch n).map (fun rec => MetricRecord.epoch rec)
        = List.range' epoch n := by
  intro n
  induction n with
  | zero => intro epoch ogi fl; simp [scenarioLoop]
  | succ n ih =>
      intro epoch ogi fl
      simp only [scenarioLoop, List.map_cons, List.range'_succ, scenarioStep_epoch,
        List.cons.injEq]
      exact ⟨trivial, ih (epoch + 1) _ _⟩

/-- Whenever every sync draw is nonzero, the loop's records have a nonzero
synchronization communication slot exactly at epoch indices divisible by 5. -/
theorem scenarioLoop_map_comm (scen : String) (env : ℕ → EpochEnv)
    (h : ∀ e, (env e).sync_draw ≠ 0) :
    ∀ (n epoch : ℕ) (ogi : List OGIAgent) (fl : List FederatedAgent),
      (scenarioLoop scen env ogi fl epoch n).map
          (fun rec => decide ( MetricRecord.comm_ogi_mb rec ≠ 0))
        = (List.range' epoch n).map (fun e => decide (e % 5 = 0)) := by
  intro n
  induction n with
  | zero => intro epoch ogi fl; simp [scenarioLoop]
  | succ n ih =>
      intro epoch ogi fl
      simp only [scenarioLoop, List.map_cons, List.range'_succ, scenarioStep_comm,
        List.cons.injEq]
      refine ⟨?_, ih (epoch + 1) _ _⟩
      by_cases h5 : epoch % 5 = 0
      · simp [h5, h epoch]
      · simp [h5]

/-- Every record the loop emits carries the scenario it was run under. -/
theorem scenarioLoop_all_scen (scen : String) (env : ℕ → EpochEnv) :
    ∀ (n epoch : ℕ) (ogi : List OGIAgent) (fl : List FederatedAgent)
      (rec : MetricRecord), rec ∈ scenarioLoop scen env ogi fl epoch n →
      MetricRecord.scenario rec = scen := by
  intro n
  induction n with
  | zero => intro epoch ogi fl rec hrec; simp [scenarioLoop] at hrec
  | succ n ih =>
      intro epoch ogi fl rec hrec
      simp only [scenarioLoop, List.mem_cons] at hrec
      rcases hrec with hrec | hrec
      · rw [hrec]
        exact scenarioStep_scen scen epoch (env epoch) ogi fl
      · exact ih (epoch + 1) _ _ rec hrec

/-- C2: with the default configuration (5 agents per variant, 20 cycles, sync
period 5) a scenario run emits exactly 20 metric records whose cycle indices
are exactly 0..19 in order, and — whenever the gauss(15, 3) sync draws are
nonzero — the synchronization communication field is nonzero exactly at cycle
indices divisible by 5, which within 0..19 are exactly 0, 5, 10 and 15. -/
theorem C2_default_run_records (envp : ℕ → EpochEnv) (scen : String)
    (h : ∀ e, (envp e).sync_draw ≠ 0) :
    (SimulationRunner.init.run_scenario scen envp).length = 20 ∧
    (SimulationRunner.init.run_scenario scen envp).map
        (fun rec => MetricRecord.epoch rec) = List.range 20 ∧
    (SimulationRunner.init.run_scenario scen envp).map
        (fun rec => decide ( MetricRecord.comm_ogi_mb rec ≠ 0))
      = (List.range 20).map (fun e => decide (e % 5 = 0)) ∧
    (List.range 20).filter (fun e => decide (e % 5 = 0)) = [0, 5, 10, 15] := by
  have h0 : SimulationRunner.init.run_scenario scen envp
      = scenarioLoop scen envp (initOgiAgents 5 scen) (initFlAgents 5 scen) 0 20 := rfl
  have hep := scenarioLoop_map_epoch scen envp 20 0
    (initOgiAgents 5 scen) (initFlAgents 5 scen)
  have hcm := scenarioLoop_map_comm scen envp h 20 0
    (initOgiAgents 5 scen) (initFlAgents 5 scen)
  have hr : List.range' 0 20 = List.range 20 := (List.range_eq_range' 20).symm
  refine ⟨?_, ?_, ?_, by decide⟩
  · have := congrArg List.length hep
    simpa using this
  · rw [h0, hep, hr]
  · rw [h0, hcm, hr]

/-- C2 witness: a concrete scenario run under inputs whose sync draw is the
mean 15 at every event. -/
theorem C2_witness :
    (SimulationRunner.init.run_scenario "medical_diagnosis" constEnv).length = 20 ∧
    (SimulationRunner.init.run_scenario "medical_diagnosis" constEnv).map
        (fun rec => decide ( MetricRecord.comm_ogi_mb rec ≠ 0))
      = (List.range 20).map (fun e => decide (e % 5 = 0)) := by
  have h := C2_default_run_records constEnv "medical_diagnosis"
    (fun e => by norm_num [constEnv])
  exact ⟨h.1, h.2.2.1⟩

/-- Records of scenarios other than s contribute nothing to the filter for s. -/
theorem runBlocks_filter_zero (r : SimulationRunner) (envOf : String → ℕ → EpochEnv)
    (s : String) :
    ∀ (l : List String), l.count s = 0 →
      ((l.map (fun sc => r.run_scenario sc (envOf sc))).flatten).filter
          (fun rec => decide ( MetricRecord.scenario rec = s)) = [] := by
  intro l
  induction l with
  | nil => intro hc; simp
  | cons a t ih =>
      intro hc
      by_cases ha : a = s
      · subst ha
        rw [List.count_cons_self] at hc
        exact absurd hc (by omega)
      · rw [List.count_cons_of_ne (Ne.symm ha)] at hc
        simp only [List.map_cons, List.flatten_cons, List.filter_append]
        rw [ih hc, List.append_nil]
        rw [List.filter_eq_nil_iff]
        intro rec hrec
        have := scenarioLoop_all_scen a (envOf a) r.num_epochs 0
          (initOgiAgents r.num_agents a) (initFlAgents r.num_agents a) rec hrec
        simp [this, ha]

/-- The records filtered for a scenario occurring exactly once are exactly that
scenario's own run, independently of where it sits in the processing order. -/
theorem runBlocks_filter_one (r : SimulationRunner) (envOf : String → ℕ → EpochEnv)
    (s : String) :
    ∀ (l : List String), l.count s = 1 →
      ((l.map (fun sc => r.run_scenario sc (envOf sc))).flatten).filter
          (fun rec => decide ( MetricRecord.scenario rec = s))
        = r.run_scenario s (envOf s) := by
  intro l
  induction l with
  | nil => intro hc; simp at hc
  | cons a t ih =>
      intro hc
      by_cases he : a = s
      · subst he
        rw [List.count_cons_self] at hc
        have ht : t.count a = 0 := by omega
        simp only [List.map_cons, List.flatten_cons, List.filter_append]
        rw [runBlocks_filter_zero r envOf a t ht, List.append_nil]
        rw [List.filter_eq_self]
        intro rec hrec
        have := scenarioLoop_all_scen a (envOf a) r.num_epochs 0
          (initOgiAgents r.num_agents a) (initFlAgents r.num_agents a) rec hrec
        simp [this]
      · rw [List.count_cons_of_ne (Ne.symm he)] at hc
        simp only [List.map_cons, List.flatten_cons, List.filter_append]
        rw [ih hc]
        have hz : (r.run_scenario a (envOf a)).filter
            (fun rec => decide ( MetricRecord.scenario rec = s)) = [] := by
          rw [List.filter_eq_nil_iff]
          intro rec hrec
          have := scenarioLoop_all_scen a (envOf a) r.num_epochs 0
            (initOgiAgents r.num_agents a) (initFlAgents r.num_agents a) rec hrec
          simp [this, he]
        rw [hz, List.nil_append]

/-- C9: when every scenario is given its own fixed input stream (per-scenario
seeding), the records a named scenario produces are independent of where that
scenario sits in the processing order: two full runs whose scenario orders both
contain s exactly once yield identical record lists for s. -/
theorem C9_scenario_isolation (order1 order2 : List String) (na ne : ℕ)
    (envOf : String → ℕ → EpochEnv) (s : String)
    (h1 : order1.count s = 1) (h2 : order2.count s = 1) :
    (SimulationRunner.run_full_simulation ⟨order1, na, ne⟩ envOf).filter
        (fun rec => decide ( MetricRecord.scenario rec = s))
      = (SimulationRunner.run_full_simulation ⟨order2, na, ne⟩ envOf).filter
        (fun rec => decide ( MetricRecord.scenario rec = s)) := by
  have e1 := runBlocks_filter_one ⟨order1, na, ne⟩ envOf s order1 h1
  have e2 := runBlocks_filter_one ⟨order2, na, ne⟩ envOf s order2 h2
  rw [SimulationRunner.run_full_simulation, SimulationRunner.run_full_simulation]
  rw [e1, e2]
  rfl

/-- C9 witness: the records of the scenario medical_diagnosis are the same
whether it is processed before or after disaster_response. -/
theorem C9_witness :
    (SimulationRunner.run_full_simulation
        ⟨["medical_diagnosis", "disaster_response"], 5, 20⟩ (fun _ => constEnv)).filter
        (fun rec => decide ( MetricRecord.scenario rec = "medical_diagnosis"))
      = (SimulationRunner.run_full_simulation
        ⟨["disaster_response", "medical_diagnosis"], 5, 20⟩ (fun _ => constEnv)).filter
        (fun rec => decide ( MetricRecord.scenario rec = "medical_diagnosis")) :=
  C9_scenario_isolation ["medical_diagnosis", "disaster_response"]
    ["disaster_response", "medical_diagnosis"] 5 20 (fun _ => constEnv)
    "medical_diagnosis" (by decide) (by decide)

end OgiSim
